import Mathlib

/-!
Shallow embedding of the fsm-go finite-state-machine runtime.

The Go source (statemachine.go, builder.go, the error table and the
registry file) is translated as follows:

* Go generics `[S comparable, E comparable, C any]` become type parameters
  `S E C` with `DecidableEq` where comparability is used.
* `State.eventTransitions : map[E][]*Transition` becomes an association
  list `List (E × List (Transition S E C))`; map lookup of a missing key
  yields the empty list, exactly as a nil Go slice behaves in the source
  (`transitions == nil || len(transitions) == 0`).
* `StateMachineImpl.stateMap : map[S]*State` becomes
  `List (S × State S E C)`; `GetState` keeps keys unique, so first-match
  lookup agrees with Go map lookup.
* `Transition.Source`/`Target` are `*State` pointers in Go; since
  `GetState` caches states uniquely per identifier, pointer equality of
  states coincides with identifier equality, so the embedding stores the
  identifiers directly.
* `Condition` and its `ConditionFunc` adapter are one predicate `C → Bool`
  (the interface has a single pure method, and the adapter is the identity
  on semantics).  `Action`/`ActionFunc` become
  `S → S → E → C → Option String`, where `none` is a nil Go error and
  `some msg` a failing effect.
* Side effects of actions are observed through an explicit trace: every
  executed action appends one `ActionExec` record carrying the arguments
  the Go `Execute(from, to, event, ctx)` call received.  A firing
  operation returns its Go result paired with that trace.
* Go error values are the constructors of `FsmError`, one per distinct
  error site of the source; `errors.Wrap(err, "action execution failed")`
  becomes `actionExecutionFailed msg` carrying the wrapped message.
* `sync.RWMutex` is dropped: each Go operation holds the lock for its
  whole body, so an operation is one atomic function of the machine value.
-/

namespace FsmGo

/-- Go `TransitionType`: `External` changes the state, `Internal` must not. -/
inductive TransitionType where
  | External
  | Internal
  deriving DecidableEq, Repr

/-- Go `Condition[C]` / `ConditionFunc[C]`: a pure predicate over the payload. -/
abbrev ConditionFn (C : Type) : Type := C → Bool

/-- Go `Action[S,E,C]` / `ActionFunc[S,E,C]`: `Execute(from, to, event, ctx) error`;
`none` models a nil error, `some msg` a failing effect. -/
abbrev ActionFn (S E C : Type) : Type := S → S → E → C → Option String

/-- Go `Transition[S,E,C]`.  `source`/`target` hold the state identifiers the
`*State` pointers of the source denote (see the file header). -/
structure Transition (S E C : Type) where
  source : S
  target : S
  event : E
  condition : Option (ConditionFn C)
  action : Option (ActionFn S E C)
  transType : TransitionType

/-- Go `State[S,E,C]`: an identifier plus the per-event ordered transition lists. -/
structure State (S E C : Type) where
  id : S
  eventTransitions : List (E × List (Transition S E C))

/-- Go `NewState`. -/
def NewState {S E C : Type} (id : S) : State S E C :=
  { id := id, eventTransitions := [] }

/-- Go `StateMachineImpl[S,E,C]` (the `sync.RWMutex` field is dropped, see header). -/
structure StateMachineImpl (S E C : Type) where
  id : String
  stateMap : List (S × State S E C)
  ready : Bool

/-- Go `NewStateMachine`. -/
def NewStateMachine {S E C : Type} (id : String) : StateMachineImpl S E C :=
  { id := id, stateMap := [], ready := false }

/-- Go map lookup `sm.stateMap[sourceStateId]`: `none` models `ok == false`. -/
def findState {S E C : Type} [DecidableEq S] :
    List (S × State S E C) → S → Option (State S E C)
  | [], _ => none
  | (k, st) :: rest, sid => if k = sid then some st else findState rest sid

/-- Go map lookup `s.eventTransitions[event]`: a missing key yields the nil
slice, i.e. the empty list. -/
def lookupEvent {S E C : Type} [DecidableEq E] :
    List (E × List (Transition S E C)) → E → List (Transition S E C)
  | [], _ => []
  | (k, v) :: rest, e => if k = e then v else lookupEvent rest e

/-- Go `State.GetEventTransitions`. -/
def State.GetEventTransitions {S E C : Type} [DecidableEq E]
    (s : State S E C) (event : E) : List (Transition S E C) :=
  lookupEvent s.eventTransitions event

/-- Helper for Go `State.AddTransition`: append a transition to the list held
under `event`, creating the entry when the key is absent (Go creates an empty
slice and then appends). -/
def appendTransition {S E C : Type} [DecidableEq E] :
    List (E × List (Transition S E C)) → E → Transition S E C →
      List (E × List (Transition S E C))
  | [], e, t => [(e, [t])]
  | (k, v) :: rest, e, t =>
      if k = e then (k, v ++ [t]) :: rest else (k, v) :: appendTransition rest e t

/-- Go `State.AddTransition` immediately followed by the builder's
`transition.Condition = cond; transition.Action = act` writes to the returned
pointer (the two-step pointer mutation of `Perform`/`PerformFunc` collapses to
one functional update).  Registration performs no validity check of any kind. -/
def State.addTransitionCA {S E C : Type} [DecidableEq E]
    (s : State S E C) (event : E) (targetId : S) (transType : TransitionType)
    (cond : Option (ConditionFn C)) (act : Option (ActionFn S E C)) : State S E C :=
  let t : Transition S E C := Transition.mk s.id targetId event cond act transType
  { s with eventTransitions := appendTransition s.eventTransitions event t }

/-- The Go error values produced by the engine, one constructor per error site. -/
inductive FsmError (S E : Type) where
  | stateMachineNotBuilt
  | stateNotFound (state : S)
  | transitionNotFound (state : S) (event : E)
  | conditionNotMet (state : S) (event : E)
  | internalTransition
  | actionExecutionFailed (msg : String)
  | stateMachineAlreadyExist (id : String)
  deriving DecidableEq, Repr

/-- One executed effect: the `(from, to, event)` arguments the Go
`Action.Execute` call received (the payload is the firing call's `ctx`). -/
structure ActionExec (S E : Type) where
  fromState : S
  toState : S
  event : E
  deriving DecidableEq, Repr

/-- Go `transition.Condition == nil || transition.Condition.IsSatisfied(ctx)`. -/
def condSat {S E C : Type} (t : Transition S E C) (ctx : C) : Bool :=
  match t.condition with
  | none => true
  | some c => c ctx

/-- The pure outcome the transition's action would report when executed with
the transition's own `(source, target, event)` arguments. -/
def actionResult {S E C : Type} (t : Transition S E C) (ctx : C) : Option String :=
  match t.action with
  | none => none
  | some a => a t.source t.target t.event ctx

/-- The trace one `Transit` call leaves when it reaches its action step. -/
def actionTrace {S E C : Type} (t : Transition S E C) : List (ActionExec S E) :=
  match t.action with
  | none => []
  | some _ => [ActionExec.mk t.source t.target t.event]

/-- Go `Transition.Transit(ctx, checkCondition)`.  Order of the source body:
internal-invariant check, optional condition re-check (staying at the source
state when it fails), action execution (wrapped failure), target.  The second
component is the effect trace of this call. -/
def Transition.Transit {S E C : Type} [DecidableEq S]
    (t : Transition S E C) (ctx : C) (checkCondition : Bool) :
    Except (FsmError S E) S × List (ActionExec S E) :=
  if t.transType = TransitionType.Internal ∧ t.source ≠ t.target then
    (Except.error FsmError.internalTransition, [])
  else if checkCondition && !(condSat t ctx) then
    (Except.ok t.source, [])
  else
    match t.action with
    | none => (Except.ok t.target, [])
    | some a =>
        match a t.source t.target t.event ctx with
        | none => (Except.ok t.target, [ActionExec.mk t.source t.target t.event])
        | some msg =>
            (Except.error (FsmError.actionExecutionFailed msg),
             [ActionExec.mk t.source t.target t.event])

/-- The scan loop of Go `FireEvent`: first transition whose condition is nil
or satisfied is transited (with `checkCondition = true`); when the list is
exhausted the source returns the "no transition conditions met" error. -/
def fireEventLoop {S E C : Type} [DecidableEq S]
    (sourceStateId : S) (event : E) :
    List (Transition S E C) → C → Except (FsmError S E) S × List (ActionExec S E)
  | [], _ => (Except.error (FsmError.conditionNotMet sourceStateId event), [])
  | t :: rest, ctx =>
      if condSat t ctx then t.Transit ctx true
      else fireEventLoop sourceStateId event rest ctx

/-- Go `StateMachineImpl.FireEvent`. -/
def StateMachineImpl.FireEvent {S E C : Type} [DecidableEq S] [DecidableEq E]
    (sm : StateMachineImpl S E C) (sourceStateId : S) (event : E) (ctx : C) :
    Except (FsmError S E) S × List (ActionExec S E) :=
  if !sm.ready then (Except.error FsmError.stateMachineNotBuilt, [])
  else
    match findState sm.stateMap sourceStateId with
    | none => (Except.error (FsmError.stateNotFound sourceStateId), [])
    | some sourceState =>
        let transitions := sourceState.GetEventTransitions event
        if transitions.isEmpty then
          (Except.error (FsmError.transitionNotFound sourceStateId event), [])
        else fireEventLoop sourceStateId event transitions ctx

/-- The execution loop of Go `FireParallelEvent`: transit every valid
transition in order (`checkCondition = false`), aborting on the first error;
the traces of the calls made so far are accumulated in order. -/
def execValid {S E C : Type} [DecidableEq S] :
    List (Transition S E C) → C →
      Except (FsmError S E) (List S) × List (ActionExec S E)
  | [], _ => (Except.ok [], [])
  | t :: rest, ctx =>
      match t.Transit ctx false with
      | (Except.error e, tr) => (Except.error e, tr)
      | (Except.ok target, tr) =>
          match execValid rest ctx with
          | (Except.error e, tr2) => (Except.error e, tr ++ tr2)
          | (Except.ok targets, tr2) => (Except.ok (target :: targets), tr ++ tr2)

/-- Go `StateMachineImpl.FireParallelEvent`. -/
def StateMachineImpl.FireParallelEvent {S E C : Type} [DecidableEq S] [DecidableEq E]
    (sm : StateMachineImpl S E C) (sourceStateId : S) (event : E) (ctx : C) :
    Except (FsmError S E) (List S) × List (ActionExec S E) :=
  if !sm.ready then (Except.error FsmError.stateMachineNotBuilt, [])
  else
    match findState sm.stateMap sourceStateId with
    | none => (Except.error (FsmError.stateNotFound sourceStateId), [])
    | some sourceState =>
        let transitions := sourceState.GetEventTransitions event
        if transitions.isEmpty then
          (Except.error (FsmError.transitionNotFound sourceStateId event), [])
        else
          let validTransitions := transitions.filter (fun t => condSat t ctx)
          if validTransitions.isEmpty then
            (Except.error (FsmError.conditionNotMet sourceStateId event), [])
          else execValid validTransitions ctx

/-- Go `StateMachineImpl.Verify`. -/
def StateMachineImpl.Verify {S E C : Type} [DecidableEq S] [DecidableEq E]
    (sm : StateMachineImpl S E C) (sourceStateId : S) (event : E) : Bool :=
  if !sm.ready then false
  else
    match findState sm.stateMap sourceStateId with
    | none => false
    | some sourceState => !(sourceState.GetEventTransitions event).isEmpty

/-- Go `StateMachineImpl.GetState`: return the cached state or insert a fresh
one; the only machine operation that mutates the state table. -/
def StateMachineImpl.GetState {S E C : Type} [DecidableEq S]
    (sm : StateMachineImpl S E C) (stateId : S) :
    State S E C × StateMachineImpl S E C :=
  match findState sm.stateMap stateId with
  | some st => (st, sm)
  | none =>
      let st : State S E C := NewState stateId
      (st, { sm with stateMap := sm.stateMap ++ [(stateId, st)] })

/-- Go `StateMachineImpl.SetReady`. -/
def StateMachineImpl.SetReady {S E C : Type}
    (sm : StateMachineImpl S E C) (ready : Bool) : StateMachineImpl S E C :=
  { sm with ready := ready }

/-- Go `RegisterStateMachine` (registry file): fail with the already-exists
error when the identifier is taken, otherwise add it.  Only the key set of the
global `registry.stateMachines` map matters to the engine, so the registry is
embedded as its list of registered identifiers. -/
def RegisterStateMachine (S E : Type) (machineId : String) (reg : List String) :
    Option (FsmError S E) × List String :=
  if machineId ∈ reg then (some (FsmError.stateMachineAlreadyExist machineId), reg)
  else (none, reg ++ [machineId])

/-- Everything Go `StateMachineBuilder.Build` leaves behind: the returned
machine (nil on error), the returned error, the builder's underlying machine
after the call, and the registry after the call. -/
structure BuildResult (S E C : Type) where
  returned : Option (StateMachineImpl S E C)
  err : Option (FsmError S E)
  machine : StateMachineImpl S E C
  registry : List String

/-- Go `StateMachineBuilder.Build(machineId)`: assign the identifier, set the
readiness flag, then try to register; on a registration error return
`(nil, err)` — the identifier assignment and the readiness flag are not
undone. -/
def StateMachineBuilder.Build {S E C : Type}
    (sm : StateMachineImpl S E C) (machineId : String) (reg : List String) :
    BuildResult S E C :=
  let sm1 : StateMachineImpl S E C := { sm with id := machineId }
  let sm2 := sm1.SetReady true
  match RegisterStateMachine S E machineId reg with
  | (some e, reg2) => BuildResult.mk none (some e) sm2 reg2
  | (none, reg2) => BuildResult.mk (some sm2) none sm2 reg2

/-- Go `ShowStateMachine`'s `transType` string. -/
def showTypeName (ty : TransitionType) : String :=
  match ty with
  | TransitionType.Internal => "INTERNAL"
  | TransitionType.External => "EXTERNAL"

/-- Go `StateMachineImpl.ShowStateMachine`.  The Go `range` over the hash maps
is embedded as iteration in list order (the embedding's maps are insertion
ordered). -/
def StateMachineImpl.ShowStateMachine {S E C : Type} [ToString S] [ToString E]
    (sm : StateMachineImpl S E C) : String :=
  "StateMachine(id=" ++ sm.id ++ "):\n" ++
    String.join (sm.stateMap.map (fun p =>
      String.join (p.2.eventTransitions.map (fun q =>
        String.join (q.2.map (fun t =>
          "  " ++ toString t.source ++ " --" ++ toString q.1 ++ "(" ++
            showTypeName t.transType ++ ")--> " ++ toString t.target ++ "\n"))))))

/-- Go `generatePlantUML`. -/
def StateMachineImpl.generatePlantUML {S E C : Type} [ToString S] [ToString E]
    (sm : StateMachineImpl S E C) : String :=
  "@startuml\n" ++ "title StateMachine: " ++ sm.id ++ "\n" ++
    String.join (sm.stateMap.map (fun p =>
      "state \"" ++ toString p.1 ++ "\" as " ++ toString p.1 ++ "\n")) ++
    String.join (sm.stateMap.map (fun p =>
      String.join (p.2.eventTransitions.map (fun q =>
        String.join (q.2.map (fun t =>
          toString t.source ++ " --> " ++ toString t.target ++ " : " ++
            toString t.event ++ "\n")))))) ++
    "@enduml\n"

/-- Go `generateMarkdownTable`'s `transType` string. -/
def tableTypeName (ty : TransitionType) : String :=
  match ty with
  | TransitionType.Internal => "Internal"
  | TransitionType.External => "External"

/-- Go `generateMarkdownTable`. -/
def StateMachineImpl.generateMarkdownTable {S E C : Type} [ToString S] [ToString E]
    (sm : StateMachineImpl S E C) : String :=
  "# State Machine: " ++ sm.id ++ "\n\n" ++
    "## States\n\n" ++
    String.join (sm.stateMap.map (fun p => "- `" ++ toString p.1 ++ "`\n")) ++
    "\n" ++
    "## Transitions\n\n" ++
    "| Source State | Event | Target State | Type |\n" ++
    "|-------------|-------|--------------|------|\n" ++
    String.join (sm.stateMap.map (fun p =>
      String.join (p.2.eventTransitions.map (fun q =>
        String.join (q.2.map (fun t =>
          "| `" ++ toString p.1 ++ "` | `" ++ toString q.1 ++ "` | `" ++
            toString t.target ++ "` | " ++ tableTypeName t.transType ++ " |\n"))))))

/-- Go `generateMarkdownFlow`'s synthetic node identifiers: `state_0`,
`state_1`, … in iteration (here: insertion) order. -/
def flowNodeIds {S E C : Type} (sm : StateMachineImpl S E C) : List (S × String) :=
  sm.stateMap.enum.map (fun p => (p.2.1, "state_" ++ toString p.1))

/-- Go map lookup `nodeIds[stateId]`: a missing key yields the zero value. -/
def lookupNodeId {S : Type} [DecidableEq S] : List (S × String) → S → String
  | [], _ => ""
  | (k, v) :: rest, sid => if k = sid then v else lookupNodeId rest sid

/-- Go `generateMarkdownFlow`. -/
def StateMachineImpl.generateMarkdownFlow {S E C : Type} [DecidableEq S]
    [ToString S] [ToString E] (sm : StateMachineImpl S E C) : String :=
  let nodeIds := flowNodeIds sm
  "```mermaid\nflowchart TD\n" ++
    String.join (sm.stateMap.enum.map (fun p =>
      "    state_" ++ toString p.1 ++ "[\"" ++ toString p.2.1 ++ "\"]\n")) ++
    String.join (sm.stateMap.map (fun p =>
      String.join (p.2.eventTransitions.map (fun q =>
        String.join (q.2.map (fun t =>
          "    " ++ lookupNodeId nodeIds p.2.id ++ " -->|" ++ toString q.1 ++
            "| " ++ lookupNodeId nodeIds t.target ++ "\n")))))) ++
    "```\n"

/-- Go `DiagramFormat` (`PlantUML`, `MarkdownTable`, `MarkdownFlow`). -/
inductive DiagramFormat where
  | PlantUML
  | MarkdownTable
  | MarkdownFlow
  deriving DecidableEq, Repr

/-- The body of Go `GenerateDiagram`'s `switch format`.  Go's `default` arm
(reachable only through out-of-range integer casts) has no counterpart: the
embedding's `DiagramFormat` has exactly the three declared constructors. -/
def renderFormat {S E C : Type} [DecidableEq S] [ToString S] [ToString E]
    (sm : StateMachineImpl S E C) : DiagramFormat → String
  | DiagramFormat.MarkdownTable => sm.generateMarkdownTable
  | DiagramFormat.MarkdownFlow => sm.generateMarkdownFlow
  | DiagramFormat.PlantUML => sm.generatePlantUML

/-- Go `GenerateDiagram`'s accumulation loop: write `"\n\n"` before every
rendering except the first. -/
def joinWithSep (sep : String) : List String → String
  | [] => ""
  | [x] => x
  | x :: y :: rest => x ++ sep ++ joinWithSep sep (y :: rest)

/-- Go `StateMachineImpl.GenerateDiagram`. -/
def StateMachineImpl.GenerateDiagram {S E C : Type} [DecidableEq S]
    [ToString S] [ToString E]
    (sm : StateMachineImpl S E C) (formats : List DiagramFormat) : String :=
  if formats.isEmpty then sm.generatePlantUML
  else joinWithSep "\n\n" (formats.map (renderFormat sm))

/-!
State-passing variants of the five public read operations, for the
frame property.  Each Go method body only ever reads `sm.stateMap` and the
states' `eventTransitions` (Go map indexing and `range` never insert), so in
every branch the machine threaded through is the unchanged receiver; contrast
`GetState` above, whose Go body does insert into `stateMap`.
-/

/-- `FireEvent` with the machine threaded through explicitly. -/
def StateMachineImpl.fireEventS {S E C : Type} [DecidableEq S] [DecidableEq E]
    (sm : StateMachineImpl S E C) (sourceStateId : S) (event : E) (ctx : C) :
    (Except (FsmError S E) S × List (ActionExec S E)) × StateMachineImpl S E C :=
  if !sm.ready then ((Except.error FsmError.stateMachineNotBuilt, []), sm)
  else
    match findState sm.stateMap sourceStateId with
    | none => ((Except.error (FsmError.stateNotFound sourceStateId), []), sm)
    | some sourceState =>
        let transitions := sourceState.GetEventTransitions event
        if transitions.isEmpty then
          ((Except.error (FsmError.transitionNotFound sourceStateId event), []), sm)
        else (fireEventLoop sourceStateId event transitions ctx, sm)

/-- `FireParallelEvent` with the machine threaded through explicitly. -/
def StateMachineImpl.fireParallelEventS {S E C : Type} [DecidableEq S] [DecidableEq E]
    (sm : StateMachineImpl S E C) (sourceStateId : S) (event : E) (ctx : C) :
    (Except (FsmError S E) (List S) × List (ActionExec S E)) × StateMachineImpl S E C :=
  if !sm.ready then ((Except.error FsmError.stateMachineNotBuilt, []), sm)
  else
    match findState sm.stateMap sourceStateId with
    | none => ((Except.error (FsmError.stateNotFound sourceStateId), []), sm)
    | some sourceState =>
        let transitions := sourceState.GetEventTransitions event
        if transitions.isEmpty then
          ((Except.error (FsmError.transitionNotFound sourceStateId event), []), sm)
        else
          let validTransitions := transitions.filter (fun t => condSat t ctx)
          if validTransitions.isEmpty then
            ((Except.error (FsmError.conditionNotMet sourceStateId event), []), sm)
          else (execValid validTransitions ctx, sm)

/-- `Verify` with the machine threaded through explicitly. -/
def StateMachineImpl.verifyS {S E C : Type} [DecidableEq S] [DecidableEq E]
    (sm : StateMachineImpl S E C) (sourceStateId : S) (event : E) :
    Bool × StateMachineImpl S E C :=
  if !sm.ready then (false, sm)
  else
    match findState sm.stateMap sourceStateId with
    | none => (false, sm)
    | some sourceState => (!(sourceState.GetEventTransitions event).isEmpty, sm)

/-- `ShowStateMachine` with the machine threaded through explicitly. -/
def StateMachineImpl.showStateMachineS {S E C : Type} [ToString S] [ToString E]
    (sm : StateMachineImpl S E C) : String × StateMachineImpl S E C :=
  (sm.ShowStateMachine, sm)

/-- `GenerateDiagram` with the machine threaded through explicitly. -/
def StateMachineImpl.generateDiagramS {S E C : Type} [DecidableEq S]
    [ToString S] [ToString E]
    (sm : StateMachineImpl S E C) (formats : List DiagramFormat) :
    String × StateMachineImpl S E C :=
  (sm.GenerateDiagram formats, sm)

/-- Replace a transition's guard by `none`, keeping everything else. -/
def eraseGuard {S E C : Type} (t : Transition S E C) : Transition S E C :=
  { t with condition := none }

/-- Erase every guard of a state's transitions. -/
def eraseGuardsState {S E C : Type} (st : State S E C) : State S E C :=
  { st with eventTransitions :=
      st.eventTransitions.map (fun q => (q.1, q.2.map eraseGuard)) }

/-- Erase every guard of the machine: two machines differ only in their
guards exactly when their `eraseGuards` images are equal. -/
def eraseGuards {S E C : Type} (sm : StateMachineImpl S E C) : StateMachineImpl S E C :=
  { sm with stateMap := sm.stateMap.map (fun p => (p.1, eraseGuardsState p.2)) }

/-! ### Helper lemmas -/

theorem lookupEvent_appendTransition {S E C : Type} [DecidableEq E]
    (m : List (E × List (Transition S E C))) (e : E) (t : Transition S E C) :
    lookupEvent (appendTransition m e t) e = lookupEvent m e ++ [t] := by
  induction m with
  | nil => simp [appendTransition, lookupEvent]
  | cons p rest ih =>
      obtain ⟨k, v⟩ := p
      by_cases hk : k = e
      · subst hk
        simp [appendTransition, lookupEvent]
      · simp [appendTransition, lookupEvent, hk, ih]

theorem Transit_violation {S E C : Type} [DecidableEq S]
    (t : Transition S E C) (ctx : C) (b : Bool)
    (h1 : t.transType = TransitionType.Internal) (h2 : t.source ≠ t.target) :
    t.Transit ctx b = (Except.error FsmError.internalTransition, []) := by
  unfold Transition.Transit
  rw [if_pos ⟨h1, h2⟩]

theorem Transit_clean {S E C : Type} [DecidableEq S]
    (t : Transition S E C) (ctx : C) (b : Bool)
    (hv : ¬ (t.transType = TransitionType.Internal ∧ t.source ≠ t.target))
    (hc : b = false ∨ condSat t ctx = true) :
    t.Transit ctx b =
      (match actionResult t ctx with
       | none => (Except.ok t.target, actionTrace t)
       | some msg => (Except.error (FsmError.actionExecutionFailed msg), actionTrace t)) := by
  have hbc : (b && !(condSat t ctx)) = false := by
    rcases hc with h | h <;> simp [h]
  unfold Transition.Transit
  rw [if_neg hv, if_neg (by simp [hbc])]
  unfold actionResult actionTrace
  cases ha : t.action with
  | none => rfl
  | some a =>
      cases har : a t.source t.target t.event ctx with
      | none => rfl
      | some msg => rfl

theorem Transit_clean_ok {S E C : Type} [DecidableEq S]
    (t : Transition S E C) (ctx : C) (b : Bool)
    (hv : ¬ (t.transType = TransitionType.Internal ∧ t.source ≠ t.target))
    (hc : b = false ∨ condSat t ctx = true)
    (ha : actionResult t ctx = none) :
    t.Transit ctx b = (Except.ok t.target, actionTrace t) := by
  rw [Transit_clean t ctx b hv hc, ha]

theorem Transit_clean_fail {S E C : Type} [DecidableEq S]
    (t : Transition S E C) (ctx : C) (b : Bool) (msg : String)
    (hv : ¬ (t.transType = TransitionType.Internal ∧ t.source ≠ t.target))
    (hc : b = false ∨ condSat t ctx = true)
    (ha : actionResult t ctx = some msg) :
    t.Transit ctx b = (Except.error (FsmError.actionExecutionFailed msg), actionTrace t) := by
  rw [Transit_clean t ctx b hv hc, ha]

theorem actionTrace_of_fail {S E C : Type}
    (t : Transition S E C) (ctx : C) (msg : String)
    (ha : actionResult t ctx = some msg) :
    actionTrace t = [ActionExec.mk t.source t.target t.event] := by
  unfold actionResult at ha
  unfold actionTrace
  cases h : t.action with
  | none => rw [h] at ha; exact absurd ha (by simp)
  | some a => rfl

theorem Transit_shape {S E C : Type} [DecidableEq S]
    (t : Transition S E C) (ctx : C) (b : Bool) :
    (t.Transit ctx b).1 = Except.ok t.target ∨
    (t.Transit ctx b).1 = Except.ok t.source ∨
    (t.Transit ctx b).1 = Except.error FsmError.internalTransition ∨
    ∃ msg, (t.Transit ctx b).1 = Except.error (FsmError.actionExecutionFailed msg) := by
  unfold Transition.Transit
  split
  · right; right; left; rfl
  · split
    · right; left; rfl
    · cases ha : t.action with
      | none => left; simp [ha]
      | some a =>
          cases har : a t.source t.target t.event ctx with
          | none => left; simp [ha, har]
          | some msg => right; right; right; exact ⟨msg, by simp [ha, har]⟩

theorem fireEventLoop_of_find?_some {S E C : Type} [DecidableEq S]
    (s : S) (e : E) (ctx : C) (l : List (Transition S E C)) (t0 : Transition S E C)
    (h : l.find? (fun t => condSat t ctx) = some t0) :
    fireEventLoop s e l ctx = t0.Transit ctx true := by
  induction l with
  | nil => exact absurd h (by simp)
  | cons t rest ih =>
      by_cases hc : condSat t ctx = true
      · rw [List.find?_cons_of_pos rest hc] at h
        have ht : t = t0 := by injection h
        subst ht
        simp [fireEventLoop, hc]
      · have hc' : condSat t ctx = false := by
          cases hcv : condSat t ctx
          · rfl
          · exact absurd hcv hc
        rw [List.find?_cons_of_neg rest (by simp [hc'])] at h
        simp [fireEventLoop, hc']
        exact ih h

theorem fireEventLoop_of_find?_none {S E C : Type} [DecidableEq S]
    (s : S) (e : E) (ctx : C) (l : List (Transition S E C))
    (h : l.find? (fun t => condSat t ctx) = none) :
    fireEventLoop s e l ctx = (Except.error (FsmError.conditionNotMet s e), []) := by
  induction l with
  | nil => rfl
  | cons t rest ih =>
      have hc : condSat t ctx = false := by
        have := List.find?_eq_none.mp h t (by simp)
        simpa using this
      have hrest : rest.find? (fun t2 => condSat t2 ctx) = none := by
        rw [List.find?_eq_none] at h ⊢
        intro x hx
        exact h x (by simp [hx])
      simp [fireEventLoop, hc]
      exact ih hrest

theorem fireEvent_of_find?_some {S E C : Type} [DecidableEq S] [DecidableEq E]
    (sm : StateMachineImpl S E C) (s : S) (e : E) (ctx : C)
    (st : State S E C) (t0 : Transition S E C)
    (hready : sm.ready = true)
    (hst : findState sm.stateMap s = some st)
    (hfind : (st.GetEventTransitions e).find? (fun t => condSat t ctx) = some t0) :
    sm.FireEvent s e ctx = t0.Transit ctx true := by
  have hne : (st.GetEventTransitions e).isEmpty = false := by
    cases hl : st.GetEventTransitions e with
    | nil => rw [hl] at hfind; exact absurd hfind (by simp)
    | cons a as => rfl
  unfold StateMachineImpl.FireEvent
  rw [hready, hst]
  simp only [Bool.not_true, Bool.false_eq_true, if_false]
  rw [hne]
  simp only [Bool.false_eq_true, if_false]
  exact fireEventLoop_of_find?_some s e ctx _ t0 hfind

theorem fireEvent_eq_stateNotFound {S E C : Type} [DecidableEq S] [DecidableEq E]
    (sm : StateMachineImpl S E C) (s : S) (e : E) (ctx : C)
    (hready : sm.ready = true)
    (hst : findState sm.stateMap s = none) :
    sm.FireEvent s e ctx = (Except.error (FsmError.stateNotFound s), []) := by
  unfold StateMachineImpl.FireEvent
  rw [hready, hst]
  rfl

theorem fireEvent_eq_transitionNotFound {S E C : Type} [DecidableEq S] [DecidableEq E]
    (sm : StateMachineImpl S E C) (s : S) (e : E) (ctx : C) (st : State S E C)
    (hready : sm.ready = true)
    (hst : findState sm.stateMap s = some st)
    (hts : st.GetEventTransitions e = []) :
    sm.FireEvent s e ctx = (Except.error (FsmError.transitionNotFound s e), []) := by
  unfold StateMachineImpl.FireEvent
  rw [hready, hst]
  simp only [Bool.not_true, Bool.false_eq_true, if_false]
  rw [hts]
  rfl

theorem fireEvent_eq_conditionNotMet {S E C : Type} [DecidableEq S] [DecidableEq E]
    (sm : StateMachineImpl S E C) (s : S) (e : E) (ctx : C) (st : State S E C)
    (hready : sm.ready = true)
    (hst : findState sm.stateMap s = some st)
    (hne : (st.GetEventTransitions e).isEmpty = false)
    (hfind : (st.GetEventTransitions e).find? (fun t => condSat t ctx) = none) :
    sm.FireEvent s e ctx = (Except.error (FsmError.conditionNotMet s e), []) := by
  unfold StateMachineImpl.FireEvent
  rw [hready, hst]
  simp only [Bool.not_true, Bool.false_eq_true, if_false]
  rw [hne]
  simp only [Bool.false_eq_true, if_false]
  exact fireEventLoop_of_find?_none s e ctx _ hfind

theorem execValid_all_ok {S E C : Type} [DecidableEq S]
    (l : List (Transition S E C)) (ctx : C)
    (h : ∀ t ∈ l, (t.Transit ctx false).1 = Except.ok t.target) :
    execValid l ctx =
      (Except.ok (l.map (fun t => t.target)),
       (l.map (fun t => (t.Transit ctx false).2)).flatten) := by
  induction l with
  | nil => rfl
  | cons t rest ih =>
      have ht := h t (by simp)
      have hrest := ih (fun t2 h2 => h t2 (by simp [h2]))
      cases hp : t.Transit ctx false with
      | mk r tr =>
          rw [hp] at ht
          simp at ht
          subst ht
          simp [execValid, hp, hrest]

theorem execValid_fail_at {S E C : Type} [DecidableEq S]
    (pre : List (Transition S E C)) (t : Transition S E C)
    (post : List (Transition S E C)) (ctx : C)
    (err : FsmError S E) (trF : List (ActionExec S E))
    (hpre : ∀ t2 ∈ pre, (t2.Transit ctx false).1 = Except.ok t2.target)
    (hT : t.Transit ctx false = (Except.error err, trF)) :
    execValid (pre ++ t :: post) ctx =
      (Except.error err,
       (pre.map (fun t2 => (t2.Transit ctx false).2)).flatten ++ trF) := by
  induction pre with
  | nil => simp [execValid, hT]
  | cons p rest ih =>
      have hp0 := hpre p (by simp)
      have hrest := ih (fun t2 h2 => hpre t2 (by simp [h2]))
      cases hp : p.Transit ctx false with
      | mk r tr =>
          rw [hp] at hp0
          simp at hp0
          subst hp0
          simp [execValid, hp, hrest]

theorem fireParallel_of_valid {S E C : Type} [DecidableEq S] [DecidableEq E]
    (sm : StateMachineImpl S E C) (s : S) (e : E) (ctx : C) (st : State S E C)
    (hready : sm.ready = true)
    (hst : findState sm.stateMap s = some st)
    (hne : (st.GetEventTransitions e).isEmpty = false)
    (hvne : ((st.GetEventTransitions e).filter (fun t => condSat t ctx)).isEmpty = false) :
    sm.FireParallelEvent s e ctx =
      execValid ((st.GetEventTransitions e).filter (fun t => condSat t ctx)) ctx := by
  unfold StateMachineImpl.FireParallelEvent
  rw [hready, hst]
  simp only [Bool.not_true, Bool.false_eq_true, if_false]
  rw [hne]
  simp only [Bool.false_eq_true, if_false]
  rw [hvne]
  simp only [Bool.false_eq_true, if_false]

theorem fireParallel_conditionNotMet {S E C : Type} [DecidableEq S] [DecidableEq E]
    (sm : StateMachineImpl S E C) (s : S) (e : E) (ctx : C) (st : State S E C)
    (hready : sm.ready = true)
    (hst : findState sm.stateMap s = some st)
    (hne : (st.GetEventTransitions e).isEmpty = false)
    (hv : (st.GetEventTransitions e).filter (fun t => condSat t ctx) = []) :
    sm.FireParallelEvent s e ctx =
      (Except.error (FsmError.conditionNotMet s e), []) := by
  unfold StateMachineImpl.FireParallelEvent
  rw [hready, hst]
  simp only [Bool.not_true, Bool.false_eq_true, if_false]
  rw [hne]
  simp only [Bool.false_eq_true, if_false]
  rw [hv]
  rfl

theorem findState_map_state {S E C : Type} [DecidableEq S]
    (f : State S E C → State S E C) (l : List (S × State S E C)) (sid : S) :
    findState (l.map (fun p => (p.1, f p.2))) sid = (findState l sid).map f := by
  induction l with
  | nil => rfl
  | cons p rest ih =>
      obtain ⟨k, st⟩ := p
      by_cases hk : k = sid
      · subst hk; simp [findState]
      · simp [findState, hk, ih]

theorem lookupEvent_map_lists {S E C : Type} [DecidableEq E]
    (g : Transition S E C → Transition S E C)
    (m : List (E × List (Transition S E C))) (e : E) :
    lookupEvent (m.map (fun q => (q.1, q.2.map g))) e = (lookupEvent m e).map g := by
  induction m with
  | nil => rfl
  | cons q rest ih =>
      obtain ⟨k, v⟩ := q
      by_cases hk : k = e
      · subst hk; simp [lookupEvent]
      · simp [lookupEvent, hk, ih]

theorem verify_eraseGuards {S E C : Type} [DecidableEq S] [DecidableEq E]
    (sm : StateMachineImpl S E C) (s : S) (e : E) :
    (eraseGuards sm).Verify s e = sm.Verify s e := by
  unfold StateMachineImpl.Verify eraseGuards
  rw [findState_map_state]
  cases hst : findState sm.stateMap s with
  | none => rfl
  | some st =>
      unfold State.GetEventTransitions eraseGuardsState
      simp [lookupEvent_map_lists]
      cases lookupEvent st.eventTransitions e <;> simp

/-! ### Concrete machines instantiating the theorems -/

/-- Guarded transition `0 --5--> 1`, guard `10 < payload`. -/
def dT1 : Transition Nat Nat Nat :=
  Transition.mk 0 1 5 (some (fun c => decide (10 < c))) none TransitionType.External

/-- Unguarded transition `0 --5--> 2` with a succeeding effect. -/
def dT2 : Transition Nat Nat Nat :=
  Transition.mk 0 2 5 none (some (fun _ _ _ _ => none)) TransitionType.External

def dState0 : State Nat Nat Nat := State.mk 0 [(5, [dT1, dT2])]

def dState1 : State Nat Nat Nat := State.mk 1 []

def dState2 : State Nat Nat Nat := State.mk 2 []

/-- A built machine with two overlapping transitions for `(0, 5)`. -/
def demoM : StateMachineImpl Nat Nat Nat :=
  StateMachineImpl.mk "demo" [(0, dState0), (1, dState1), (2, dState2)] true

/-- Unguarded transition `0 --6--> 1` whose effect fails with `"ka"`. -/
def fT : Transition Nat Nat Nat :=
  Transition.mk 0 1 6 none (some (fun _ _ _ _ => some "ka")) TransitionType.External

/-- Unguarded transition `0 --7--> 1` with a succeeding effect. -/
def pT1 : Transition Nat Nat Nat :=
  Transition.mk 0 1 7 none (some (fun _ _ _ _ => none)) TransitionType.External

/-- Unguarded transition `0 --7--> 2` whose effect fails with `"boom"`. -/
def pT2 : Transition Nat Nat Nat :=
  Transition.mk 0 2 7 none (some (fun _ _ _ _ => some "boom")) TransitionType.External

/-- Guarded transition `0 --7--> 3`, guard `payload = 99`. -/
def pT3 : Transition Nat Nat Nat :=
  Transition.mk 0 3 7 (some (fun c => decide (c = 99))) none TransitionType.External

/-- Unguarded effect-free transition `0 --8--> 1`. -/
def qT1 : Transition Nat Nat Nat := Transition.mk 0 1 8 none none TransitionType.External

/-- Unguarded effect-free transition `0 --8--> 2`. -/
def qT2 : Transition Nat Nat Nat := Transition.mk 0 2 8 none none TransitionType.External

/-- Transition `0 --9--> 1` whose guard is constantly false. -/
def rT1 : Transition Nat Nat Nat :=
  Transition.mk 0 1 9 (some (fun _ => false)) none TransitionType.External

def pState0 : State Nat Nat Nat :=
  State.mk 0 [(6, [fT]), (7, [pT1, pT2, pT3]), (8, [qT1, qT2]), (9, [rT1])]

/-- A built machine exercising parallel firing and effect failure. -/
def parM : StateMachineImpl Nat Nat Nat :=
  StateMachineImpl.mk "par"
    [(0, pState0), (1, dState1), (2, dState2), (3, State.mk 3 [])] true

/-- An `Internal` transition `0 --4--> 1` violating the internal invariant. -/
def iT : Transition Nat Nat Nat := Transition.mk 0 1 4 none none TransitionType.Internal

def iState0 : State Nat Nat Nat := State.mk 0 [(4, [iT])]

/-- A built machine holding the violating internal transition. -/
def intM : StateMachineImpl Nat Nat Nat :=
  StateMachineImpl.mk "int" [(0, iState0), (1, dState1)] true

/-- Unguarded transition `0 --1--> 1`. -/
def uT : Transition Nat Nat Nat := Transition.mk 0 1 1 none none TransitionType.External

def uState0 : State Nat Nat Nat := State.mk 0 [(1, [uT])]

/-- A machine that has states and transitions but was never built. -/
def uM : StateMachineImpl Nat Nat Nat :=
  StateMachineImpl.mk "u" [(0, uState0), (1, dState1)] false

/-! ### Claim theorems -/

/-- Claim C1: on a built machine, for a present state `s`, an event `e` whose
registered transition list is non-empty (implied by `hfind`) and any payload,
`FireEvent` selects the earliest-registered transition whose guard is absent
or true (`find?` scans in registration order): the whole call equals that one
transition's `Transit`, so later-registered transitions are never consulted
even when their guards would also hold — which is exactly why reordering two
overlapping-guard registrations changes the winner.  When the chosen
transition passes the internal-transition check its effect (if any) is
executed exactly once (the effect trace is precisely its single action
record), and when that effect succeeds the call returns the chosen
transition's target identifier. -/
theorem fireEvent_first_match_wins {S E C : Type} [DecidableEq S] [DecidableEq E]
    (sm : StateMachineImpl S E C) (s : S) (e : E) (ctx : C)
    (st : State S E C) (t0 : Transition S E C)
    (hready : sm.ready = true)
    (hst : findState sm.stateMap s = some st)
    (hfind : (st.GetEventTransitions e).find? (fun t => condSat t ctx) = some t0) :
    sm.FireEvent s e ctx = t0.Transit ctx true ∧
    (¬ (t0.transType = TransitionType.Internal ∧ t0.source ≠ t0.target) →
      (sm.FireEvent s e ctx).2 = actionTrace t0 ∧
      (actionResult t0 ctx = none →
        sm.FireEvent s e ctx = (Except.ok t0.target, actionTrace t0))) := by
  have hmain := fireEvent_of_find?_some sm s e ctx st t0 hready hst hfind
  have hcond : condSat t0 ctx = true := by simpa using List.find?_some hfind
  refine ⟨hmain, fun hv => ⟨?_, fun ha => ?_⟩⟩
  · rw [hmain, Transit_clean t0 ctx true hv (Or.inr hcond)]
    cases hr : actionResult t0 ctx <;> simp [hr]
  · rw [hmain, Transit_clean_ok t0 ctx true hv (Or.inr hcond) ha]

/-- Witness for C1 on `demoM`: payload 3 fails `dT1`'s guard, so the
second-registered `dT2` wins, its effect runs once, and its target 2 is
returned. -/
theorem fireEvent_first_match_wins_witness :
    demoM.FireEvent 0 5 3 = (Except.ok 2, [ActionExec.mk 0 2 5]) := by
  have h := fireEvent_first_match_wins demoM 0 5 3 dState0 dT2 rfl rfl rfl
  have h2 := (h.2 (by decide)).2 rfl
  exact h2.trans rfl

/-- Claim C7: every `FireEvent`, `FireParallelEvent` or `Verify` call against
a machine whose readiness flag is unset fails deterministically — the fire
calls with the not-built error and `Verify` with `false` — and the effect
trace is empty, so no effect is executed; the result is a constant, so no
guard's value is ever consulted. -/
theorem unbuilt_machine_fails {S E C : Type} [DecidableEq S] [DecidableEq E]
    (sm : StateMachineImpl S E C) (s : S) (e : E) (ctx : C)
    (h : sm.ready = false) :
    sm.FireEvent s e ctx = (Except.error FsmError.stateMachineNotBuilt, []) ∧
    sm.FireParallelEvent s e ctx = (Except.error FsmError.stateMachineNotBuilt, []) ∧
    sm.Verify s e = false := by
  unfold StateMachineImpl.FireEvent StateMachineImpl.FireParallelEvent
    StateMachineImpl.Verify
  rw [h]
  exact ⟨rfl, rfl, rfl⟩

/-- Witness for C7 on the never-built `uM`, which does hold a registered
transition for `(0, 1)`. -/
theorem unbuilt_machine_fails_witness :
    uM.FireEvent 0 1 0 = (Except.error FsmError.stateMachineNotBuilt, []) ∧
    uM.FireParallelEvent 0 1 0 = (Except.error FsmError.stateMachineNotBuilt, []) ∧
    uM.Verify 0 1 = false :=
  unbuilt_machine_fails uM 0 1 0 rfl

/-- Claim C10: `Build(id)` assigns the identifier and sets readiness before
attempting registry registration, so when the identifier is already
registered the call returns no machine together with the already-exists
error, while the underlying machine keeps `ready = true` and the assigned
identifier (and its state table): nothing is rolled back; the registry is
left unchanged. -/
theorem build_failure_not_rolled_back {S E C : Type}
    (sm : StateMachineImpl S E C) (machineId : String) (reg : List String)
    (h : machineId ∈ reg) :
    (StateMachineBuilder.Build sm machineId reg).returned = none ∧
    (StateMachineBuilder.Build sm machineId reg).err =
      some (FsmError.stateMachineAlreadyExist machineId) ∧
    (StateMachineBuilder.Build sm machineId reg).machine.ready = true ∧
    (StateMachineBuilder.Build sm machineId reg).machine.id = machineId ∧
    (StateMachineBuilder.Build sm machineId reg).machine.stateMap = sm.stateMap ∧
    (StateMachineBuilder.Build sm machineId reg).registry = reg := by
  unfold StateMachineBuilder.Build RegisterStateMachine
  rw [if_pos h]
  exact ⟨rfl, rfl, rfl, rfl, rfl, rfl⟩

/-- Witness for C10: building the unready `uM` under the taken identifier
`"m1"`. -/
theorem build_failure_not_rolled_back_witness :
    (StateMachineBuilder.Build uM "m1" ["m1"]).returned = none ∧
    (StateMachineBuilder.Build uM "m1" ["m1"]).err =
      some (FsmError.stateMachineAlreadyExist "m1") ∧
    (StateMachineBuilder.Build uM "m1" ["m1"]).machine.ready = true ∧
    (StateMachineBuilder.Build uM "m1" ["m1"]).machine.id = "m1" ∧
    (StateMachineBuilder.Build uM "m1" ["m1"]).machine.stateMap = uM.stateMap ∧
    (StateMachineBuilder.Build uM "m1" ["m1"]).registry = ["m1"] :=
  build_failure_not_rolled_back uM "m1" ["m1"] (by simp)

/-- Claim C2: on a built machine, for a present state and an event with a
non-empty registered transition list, `FireParallelEvent` first collects every
transition whose guard is absent or true (`valid` is the full `filter`, not
just the first match); when that collected set is empty the call fails with
the condition-not-met error, and otherwise, when every matched transition
executes successfully, it returns the target identifiers of all matched
transitions in registration order, so the result length equals the number of
matches. -/
theorem fireParallelEvent_matches {S E C : Type} [DecidableEq S] [DecidableEq E]
    (sm : StateMachineImpl S E C) (s : S) (e : E) (ctx : C)
    (st : State S E C) (valid : List (Transition S E C))
    (hready : sm.ready = true)
    (hst : findState sm.stateMap s = some st)
    (hne : (st.GetEventTransitions e).isEmpty = false)
    (hv : (st.GetEventTransitions e).filter (fun t => condSat t ctx) = valid) :
    (valid = [] →
      sm.FireParallelEvent s e ctx = (Except.error (FsmError.conditionNotMet s e), [])) ∧
    (valid ≠ [] →
      (∀ t ∈ valid, (t.Transit ctx false).1 = Except.ok t.target) →
      (sm.FireParallelEvent s e ctx).1 = Except.ok (valid.map (fun t => t.target)) ∧
      (valid.map (fun t => t.target)).length = valid.length) := by
  constructor
  · intro hnil
    subst hnil
    exact fireParallel_conditionNotMet sm s e ctx st hready hst hne hv
  · intro hvne hok
    have hvne' : ((st.GetEventTransitions e).filter (fun t => condSat t ctx)).isEmpty = false := by
      rw [hv]
      cases valid with
      | nil => exact absurd rfl hvne
      | cons a as => rfl
    have hfp := fireParallel_of_valid sm s e ctx st hready hst hne hvne'
    rw [hv] at hfp
    rw [hfp, execValid_all_ok valid ctx hok]
    exact ⟨rfl, by simp⟩

/-- Witness for C2 on `parM`: event 8 matches both unguarded transitions
`qT1, qT2` and returns their targets in order; event 9's only transition has
a false guard, so the call fails with condition-not-met. -/
theorem fireParallelEvent_matches_witness :
    (parM.FireParallelEvent 0 8 0).1 = Except.ok [1, 2] ∧
    parM.FireParallelEvent 0 9 0 = (Except.error (FsmError.conditionNotMet 0 9), []) := by
  have h8 := fireParallelEvent_matches parM 0 8 0 pState0 [qT1, qT2] rfl rfl rfl rfl
  have h9 := fireParallelEvent_matches parM 0 9 0 pState0 [] rfl rfl rfl rfl
  exact ⟨((h8.2 (by simp)
    (by intro t ht; simp at ht; rcases ht with rfl | rfl <;> rfl)).1).trans rfl, h9.1 rfl⟩

/-- Claim C3: when, during `FireParallelEvent`, the effect of the k-th matched
transition fails (here: the matched list splits as `pre ++ t :: post` with
every transition of `pre` succeeding and `t`'s action failing), the call
aborts immediately and returns exactly the wrapped action error — no list of
target states, and nothing in the error identifies the earlier successes; the
effect trace shows the effects of the first k−1 matches followed by the
failing effect itself, all already executed and not rolled back, and nothing
of `post` is ever executed. -/
theorem fireParallelEvent_partial_failure {S E C : Type} [DecidableEq S] [DecidableEq E]
    (sm : StateMachineImpl S E C) (s : S) (e : E) (ctx : C)
    (st : State S E C) (pre : List (Transition S E C)) (t : Transition S E C)
    (post : List (Transition S E C)) (msg : String)
    (hready : sm.ready = true)
    (hst : findState sm.stateMap s = some st)
    (hv : (st.GetEventTransitions e).filter (fun t2 => condSat t2 ctx) = pre ++ t :: post)
    (hpre : ∀ t2 ∈ pre, (t2.Transit ctx false).1 = Except.ok t2.target)
    (hnoviol : ¬ (t.transType = TransitionType.Internal ∧ t.source ≠ t.target))
    (hfail : actionResult t ctx = some msg) :
    sm.FireParallelEvent s e ctx =
      (Except.error (FsmError.actionExecutionFailed msg),
       (pre.map (fun t2 => (t2.Transit ctx false).2)).flatten ++
         [ActionExec.mk t.source t.target t.event]) := by
  have hne : (st.GetEventTransitions e).isEmpty = false := by
    cases hl : st.GetEventTransitions e with
    | nil => rw [hl] at hv; simp at hv
    | cons a as => rfl
  have hvne : ((st.GetEventTransitions e).filter (fun t2 => condSat t2 ctx)).isEmpty = false := by
    rw [hv]
    cases pre <;> rfl
  have hT : t.Transit ctx false =
      (Except.error (FsmError.actionExecutionFailed msg),
       [ActionExec.mk t.source t.target t.event]) := by
    rw [Transit_clean_fail t ctx false msg hnoviol (Or.inl rfl) hfail,
      actionTrace_of_fail t ctx msg hfail]
  have hfp := fireParallel_of_valid sm s e ctx st hready hst hne hvne
  rw [hv] at hfp
  rw [hfp]
  exact execValid_fail_at pre t post ctx (FsmError.actionExecutionFailed msg)
    [ActionExec.mk t.source t.target t.event] hpre hT

/-- Witness for C3 on `parM`: event 7 matches `pT1` (succeeds) and `pT2`
(fails with `"boom"`); the call returns the wrapped error and the trace shows
both executed effects, `pT1`'s not rolled back and `pT3` never consulted. -/
theorem fireParallelEvent_partial_failure_witness :
    parM.FireParallelEvent 0 7 0 =
      (Except.error (FsmError.actionExecutionFailed "boom"),
       [ActionExec.mk 0 1 7, ActionExec.mk 0 2 7]) := by
  have h := fireParallelEvent_partial_failure parM 0 7 0 pState0 [pT1] pT2 [] "boom"
    rfl rfl rfl (by intro t ht; simp at ht; subst ht; rfl) (by decide) rfl
  exact h.trans rfl

/-- Claim C5: an `internal` transition whose source and target differ makes
the firing call fail with the internal-transition error, regardless of the
guard's value (the check precedes the condition re-check inside `Transit`)
and regardless of the `checkCondition` flag: (1) `Transit` itself always
returns the error, executing no effect; (2) `FireEvent` fails that way when
the chosen transition violates the invariant; (3) `FireParallelEvent` fails
that way when a matched transition (after successful earlier matches)
violates it; (4) registration performs no such check — `addTransitionCA`
stores a violating internal transition unconditionally.  All failures are
returned error values; the embedding has no other failure channel. -/
theorem internal_transition_fails_when_taken {S E C : Type}
    [DecidableEq S] [DecidableEq E] :
    (∀ (t : Transition S E C) (ctx : C) (b : Bool),
      t.transType = TransitionType.Internal → t.source ≠ t.target →
      t.Transit ctx b = (Except.error FsmError.internalTransition, [])) ∧
    (∀ (sm : StateMachineImpl S E C) (s : S) (e : E) (ctx : C)
        (st : State S E C) (t0 : Transition S E C),
      sm.ready = true → findState sm.stateMap s = some st →
      (st.GetEventTransitions e).find? (fun t => condSat t ctx) = some t0 →
      t0.transType = TransitionType.Internal → t0.source ≠ t0.target →
      sm.FireEvent s e ctx = (Except.error FsmError.internalTransition, [])) ∧
    (∀ (sm : StateMachineImpl S E C) (s : S) (e : E) (ctx : C)
        (st : State S E C) (pre : List (Transition S E C))
        (t : Transition S E C) (post : List (Transition S E C)),
      sm.ready = true → findState sm.stateMap s = some st →
      (st.GetEventTransitions e).filter (fun t2 => condSat t2 ctx) = pre ++ t :: post →
      (∀ t2 ∈ pre, (t2.Transit ctx false).1 = Except.ok t2.target) →
      t.transType = TransitionType.Internal → t.source ≠ t.target →
      (sm.FireParallelEvent s e ctx).1 = Except.error FsmError.internalTransition) ∧
    (∀ (st : State S E C) (e : E) (tgt : S)
        (cond : Option (ConditionFn C)) (act : Option (ActionFn S E C)),
      (State.addTransitionCA st e tgt TransitionType.Internal cond act).GetEventTransitions e =
        st.GetEventTransitions e ++
          [Transition.mk st.id tgt e cond act TransitionType.Internal]) := by
  refine ⟨fun t ctx b h1 h2 => Transit_violation t ctx b h1 h2, ?_, ?_, ?_⟩
  · intro sm s e ctx st t0 hready hst hfind h1 h2
    rw [fireEvent_of_find?_some sm s e ctx st t0 hready hst hfind]
    exact Transit_violation t0 ctx true h1 h2
  · intro sm s e ctx st pre t post hready hst hv hpre h1 h2
    have hne : (st.GetEventTransitions e).isEmpty = false := by
      cases hl : st.GetEventTransitions e with
      | nil => rw [hl] at hv; simp at hv
      | cons a as => rfl
    have hvne : ((st.GetEventTransitions e).filter (fun t2 => condSat t2 ctx)).isEmpty = false := by
      rw [hv]
      cases pre <;> rfl
    have hfp := fireParallel_of_valid sm s e ctx st hready hst hne hvne
    rw [hv] at hfp
    rw [hfp, execValid_fail_at pre t post ctx FsmError.internalTransition []
      hpre (Transit_violation t ctx false h1 h2)]
  · intro st e tgt cond act
    unfold State.addTransitionCA State.GetEventTransitions
    exact lookupEvent_appendTransition st.eventTransitions e _

/-- Witness for C5 on `intM`, whose internal transition `iT` goes `0 → 1`:
it fails at the `Transit`, `FireEvent` and `FireParallelEvent` levels, and is
nonetheless stored without complaint at registration. -/
theorem internal_transition_fails_when_taken_witness :
    iT.Transit 0 true = (Except.error FsmError.internalTransition, []) ∧
    intM.FireEvent 0 4 0 = (Except.error FsmError.internalTransition, []) ∧
    (intM.FireParallelEvent 0 4 0).1 = Except.error FsmError.internalTransition ∧
    (State.addTransitionCA dState1 4 2 TransitionType.Internal none none).GetEventTransitions 4 =
      [Transition.mk 1 2 4 none none TransitionType.Internal] := by
  have h := @internal_transition_fails_when_taken Nat Nat Nat _ _
  exact ⟨h.1 iT 0 true rfl (by decide),
    h.2.1 intM 0 4 0 iState0 iT rfl rfl rfl rfl (by decide),
    h.2.2.1 intM 0 4 0 iState0 [] iT [] rfl rfl rfl (by simp) rfl (by decide),
    (h.2.2.2 dState1 4 2 none none).trans rfl⟩

/-- Claim C4: on a built machine `FireEvent` fails with the state-not-found
error iff the source state is absent from the state table; with the
transition-not-found error iff the state exists but holds no transition list
for the event; with the condition-not-met error iff transitions exist but no
transition's guard held; and when the chosen (earliest matching) transition
passes the internal check but its effect fails, the call returns the
action-execution-failed error wrapping the effect's own message and consults
no further candidate transition (the whole result is that one transition's
outcome). -/
theorem fireEvent_error_taxonomy {S E C : Type} [DecidableEq S] [DecidableEq E]
    (sm : StateMachineImpl S E C) (s : S) (e : E) (ctx : C)
    (hready : sm.ready = true) :
    ((sm.FireEvent s e ctx).1 = Except.error (FsmError.stateNotFound s) ↔
      findState sm.stateMap s = none) ∧
    ((sm.FireEvent s e ctx).1 = Except.error (FsmError.transitionNotFound s e) ↔
      ∃ st, findState sm.stateMap s = some st ∧ st.GetEventTransitions e = []) ∧
    ((sm.FireEvent s e ctx).1 = Except.error (FsmError.conditionNotMet s e) ↔
      ∃ st, findState sm.stateMap s = some st ∧ st.GetEventTransitions e ≠ [] ∧
        (st.GetEventTransitions e).find? (fun t => condSat t ctx) = none) ∧
    (∀ (st : State S E C) (t0 : Transition S E C) (msg : String),
      findState sm.stateMap s = some st →
      (st.GetEventTransitions e).find? (fun t => condSat t ctx) = some t0 →
      ¬ (t0.transType = TransitionType.Internal ∧ t0.source ≠ t0.target) →
      actionResult t0 ctx = some msg →
      sm.FireEvent s e ctx =
        (Except.error (FsmError.actionExecutionFailed msg),
         [ActionExec.mk t0.source t0.target t0.event])) := by
  cases hst : findState sm.stateMap s with
  | none =>
      rw [fireEvent_eq_stateNotFound sm s e ctx hready hst]
      refine ⟨by simp, by simp, by simp, ?_⟩
      intro st t0 msg hst2
      exact absurd hst2 (by simp)
  | some st =>
      cases hts : st.GetEventTransitions e with
      | nil =>
          rw [fireEvent_eq_transitionNotFound sm s e ctx st hready hst hts]
          refine ⟨by simp, ⟨fun _ => ⟨st, rfl, hts⟩, fun _ => by simp⟩, ?_, ?_⟩
          · constructor
            · intro hc; exact absurd hc (by simp)
            · rintro ⟨st', hst', hne', _⟩
              rw [Option.some_inj] at hst'
              subst hst'
              exact absurd hts hne'
          · intro st' t0 msg hst' hfind' _ _
            rw [Option.some_inj] at hst'
            subst hst'
            rw [hts] at hfind'
            exact absurd hfind' (by simp)
      | cons a as =>
          have hne : (st.GetEventTransitions e).isEmpty = false := by rw [hts]; rfl
          cases hfind : (st.GetEventTransitions e).find? (fun t => condSat t ctx) with
          | none =>
              rw [fireEvent_eq_conditionNotMet sm s e ctx st hready hst hne hfind]
              refine ⟨by simp, ?_, ?_, ?_⟩
              · constructor
                · intro hc; exact absurd hc (by simp)
                · rintro ⟨st', hst', hts'⟩
                  have hss : st' = st := (Option.some_inj.mp hst').symm
                  rw [hss, hts] at hts'
                  simp at hts'
              · constructor
                · intro _
                  exact ⟨st, rfl, by rw [hts]; simp, hfind⟩
                · intro _; rfl
              · intro st' t0 msg hst' hfind' _ _
                have hss : st' = st := (Option.some_inj.mp hst').symm
                rw [hss, hfind] at hfind'
                exact absurd hfind' (by simp)
          | some t0 =>
              have hfe := fireEvent_of_find?_some sm s e ctx st t0 hready hst hfind
              refine ⟨?_, ?_, ?_, ?_⟩
              · constructor
                · intro hc
                  rw [hfe] at hc
                  rcases Transit_shape t0 ctx true with h | h | h | ⟨msg, h⟩ <;>
                    rw [h] at hc <;> exact absurd hc (by simp)
                · intro hc; exact absurd hc (by simp)
              · constructor
                · intro hc
                  rw [hfe] at hc
                  rcases Transit_shape t0 ctx true with h | h | h | ⟨msg, h⟩ <;>
                    rw [h] at hc <;> exact absurd hc (by simp)
                · rintro ⟨st', hst', hts'⟩
                  rw [Option.some_inj] at hst'
                  subst hst'
                  rw [hts] at hts'
                  simp at hts'
              · constructor
                · intro hc
                  rw [hfe] at hc
                  rcases Transit_shape t0 ctx true with h | h | h | ⟨msg, h⟩ <;>
                    rw [h] at hc <;> exact absurd hc (by simp)
                · rintro ⟨st', hst', _, hfind'⟩
                  rw [Option.some_inj] at hst'
                  subst hst'
                  rw [hfind] at hfind'
                  exact absurd hfind' (by simp)
              · intro st' t0' msg hst' hfind' hv hfail
                rw [Option.some_inj] at hst'
                subst hst'
                rw [hfind, Option.some_inj] at hfind'
                subst hfind'
                have hcond : condSat t0 ctx = true := by
                  simpa using List.find?_some hfind
                rw [hfe, Transit_clean_fail t0 ctx true msg hv (Or.inr hcond) hfail,
                  actionTrace_of_fail t0 ctx msg hfail]

/-- Witness for C4: on `demoM` a missing state yields state-not-found and a
state with no transitions for the event yields transition-not-found; on
`parM` event 9's guards all fail (condition-not-met) and event 6's chosen
transition has a failing effect (wrapped action failure, no retry). -/
theorem fireEvent_error_taxonomy_witness :
    (demoM.FireEvent 99 5 3).1 = Except.error (FsmError.stateNotFound 99) ∧
    (demoM.FireEvent 1 5 3).1 = Except.error (FsmError.transitionNotFound 1 5) ∧
    (parM.FireEvent 0 9 0).1 = Except.error (FsmError.conditionNotMet 0 9) ∧
    parM.FireEvent 0 6 0 =
      (Except.error (FsmError.actionExecutionFailed "ka"), [ActionExec.mk 0 1 6]) := by
  have h1 := (fireEvent_error_taxonomy demoM 99 5 3 rfl).1.mpr rfl
  have h2 := (fireEvent_error_taxonomy demoM 1 5 3 rfl).2.1.mpr ⟨dState1, rfl, rfl⟩
  have h3 := (fireEvent_error_taxonomy parM 0 9 0 rfl).2.2.1.mpr
    ⟨pState0, rfl, by rw [show pState0.GetEventTransitions 9 = [rT1] from rfl]; simp, rfl⟩
  have h4 := (fireEvent_error_taxonomy parM 0 6 0 rfl).2.2.2 pState0 fT "ka"
    rfl rfl (by decide) rfl
  exact ⟨h1, h2, h3, h4.trans rfl⟩

/-- Counterexample to C6 as stated: the claim quantifies over *every*
machine, but on a machine that was never built, `Verify` returns `false`
even though the state exists and holds a registered transition for the
event, so the stated equivalence fails at `(uM, 0, 1)`. -/
theorem verify_existence_counterexample :
    uM.Verify 0 1 = false ∧
    findState uM.stateMap 0 = some uState0 ∧
    uState0.GetEventTransitions 1 ≠ [] := by
  refine ⟨rfl, rfl, ?_⟩
  rw [show uState0.GetEventTransitions 1 = [uT] from rfl]
  simp

/-- Claim C6 (amended: restricted to built machines, as the unready
counterexample forces): on a machine whose readiness flag is set,
`Verify(s, e)` returns true iff `s` is in the state table and holds at least
one registered transition for `e`; and `Verify` never evaluates any guard —
its result is identical on any two machines that differ only in their
guards (equal `eraseGuards` images), hence for any payload-level guard
outcome. -/
theorem verify_existence_iff_built {S E C : Type} [DecidableEq S] [DecidableEq E]
    (sm : StateMachineImpl S E C) (s : S) (e : E)
    (hready : sm.ready = true) :
    (sm.Verify s e = true ↔
      ∃ st, findState sm.stateMap s = some st ∧ st.GetEventTransitions e ≠ []) ∧
    (∀ sm2 : StateMachineImpl S E C, eraseGuards sm = eraseGuards sm2 →
      sm.Verify s e = sm2.Verify s e) := by
  constructor
  · unfold StateMachineImpl.Verify
    rw [hready]
    simp only [Bool.not_true, Bool.false_eq_true, if_false]
    cases hst : findState sm.stateMap s with
    | none => simp
    | some st => simp
  · intro sm2 heq
    rw [← verify_eraseGuards sm s e, heq, verify_eraseGuards sm2 s e]

/-- Witness for the amended C6 on `demoM`: state 0 has transitions for
event 5, so `Verify` is true. -/
theorem verify_existence_iff_built_witness :
    demoM.Verify 0 5 = true :=
  (verify_existence_iff_built demoM 0 5 rfl).1.mpr
    ⟨dState0, rfl, by rw [show dState0.GetEventTransitions 5 = [dT1, dT2] from rfl]; simp⟩

/-- Claim C8: `GenerateDiagram` with an empty format list is exactly the
PlantUML rendering, and for every pair of formats the two renderings are
produced in the requested order and concatenated with a blank-line
(`"\n\n"`) separator. -/
theorem generateDiagram_default_concat {S E C : Type} [DecidableEq S]
    [ToString S] [ToString E] (sm : StateMachineImpl S E C) :
    sm.GenerateDiagram [] = sm.GenerateDiagram [DiagramFormat.PlantUML] ∧
    ∀ (A B : DiagramFormat),
      sm.GenerateDiagram [A, B] =
        sm.GenerateDiagram [A] ++ "\n\n" ++ sm.GenerateDiagram [B] := by
  constructor
  · simp [StateMachineImpl.GenerateDiagram, joinWithSep, renderFormat]
  · intro A B
    simp [StateMachineImpl.GenerateDiagram, joinWithSep]

/-- Claim C9: on a built machine, none of the five public operations
`FireEvent`, `FireParallelEvent`, `Verify`, `ShowStateMachine` and
`GenerateDiagram` adds or removes states or transitions: their
state-passing embeddings return the machine — its state table and with it
every state's per-event transition lists — unchanged in every branch. -/
theorem built_ops_preserve_graph {S E C : Type} [DecidableEq S] [DecidableEq E]
    [ToString S] [ToString E]
    (sm : StateMachineImpl S E C) (s : S) (e : E) (ctx : C)
    (formats : List DiagramFormat)
    (hready : sm.ready = true) :
    (sm.fireEventS s e ctx).2 = sm ∧
    (sm.fireParallelEventS s e ctx).2 = sm ∧
    (sm.verifyS s e).2 = sm ∧
    sm.showStateMachineS.2 = sm ∧
    (sm.generateDiagramS formats).2 = sm := by
  refine ⟨?_, ?_, ?_, rfl, rfl⟩
  · unfold StateMachineImpl.fireEventS
    split
    · rfl
    · split
      · rfl
      · dsimp only
        split <;> rfl
  · unfold StateMachineImpl.fireParallelEventS
    split
    · rfl
    · split
      · rfl
      · dsimp only
        split
        · rfl
        · split <;> rfl
  · unfold StateMachineImpl.verifyS
    split
    · rfl
    · split <;> rfl

/-- Witness for C9 on `demoM`. -/
theorem built_ops_preserve_graph_witness :
    (demoM.fireEventS 0 5 3).2 = demoM ∧
    (demoM.fireParallelEventS 0 5 3).2 = demoM ∧
    (demoM.verifyS 0 5).2 = demoM ∧
    demoM.showStateMachineS.2 = demoM ∧
    (demoM.generateDiagramS [DiagramFormat.PlantUML]).2 = demoM :=
  built_ops_preserve_graph demoM 0 5 3 [DiagramFormat.PlantUML] rfl

end FsmGo
